import Mathlib

/-!
Shallow embedding of the real-time audio streaming engine of
`frontend-voice-model`: the signal conditioner and PCM quantizer of
`AudioRecorder.tsx` (`processAudioChunk`), the base64 frame codec
(`encodePCMToBase64` and the byte decoding in
`VoiceSocket.handleAudioPlayback`), the playback scheduler, and the
`VoiceSocket` transport state machine (queueing, flushing, reconnect
policy).  Audio samples and time are idealized as exact rationals; the
JavaScript `Int16Array` conversion is modelled by truncation toward zero,
which is what the ECMAScript ToInt16 operation performs on the clamped
values arising here.
-/

namespace VoiceModel

/-! ### Signal conditioner (`AudioRecorder.tsx`, `processAudioChunk` lines 176-199) -/

/-- One step of the one-pole low-pass filter:
`smooth = prev + smoothingFactor * (raw - prev)` with `smoothingFactor = 0.12`. -/
def smoothStep (prev raw : ℚ) : ℚ :=
  prev + (12 / 100) * (raw - prev)

/-- The noise gate: `Math.abs(smooth) < noiseGateThreshold ? 0 : smooth`
with `noiseGateThreshold = 0.015`. -/
def gate (s : ℚ) : ℚ :=
  if |s| < 15 / 1000 then 0 else s

/-- The conditioning loop of `processAudioChunk`: for each raw sample the
smoothed value is produced, the gate applied, and the (ungated) smoothed
value carried into the next iteration as `prev`. -/
def conditionAux : ℚ → List ℚ → List ℚ
  | _, [] => []
  | prev, raw :: rest =>
    gate (smoothStep prev raw) :: conditionAux (smoothStep prev raw) rest

/-- The denoised sequence produced by `processAudioChunk`, seeded `prev = 0`. -/
def condition (raw : List ℚ) : List ℚ :=
  conditionAux 0 raw

/-- JavaScript ToInt16 truncation toward zero of a rational
(the fractional part is dropped, i.e. floor for nonnegative values and
ceiling for negative ones). -/
def jsTrunc (q : ℚ) : ℤ :=
  if 0 ≤ q then ⌊q⌋ else ⌈q⌉

/-- The clamp of `processAudioChunk`:
`Math.max(-32768, Math.min(32767, sample * 32768))` before Int16 storage. -/
def clampQ (q : ℚ) : ℚ :=
  max (-32768) (min 32767 q)

/-- Integer clamp to the int16 range. -/
def clampInt (z : ℤ) : ℤ :=
  max (-32768) (min 32767 z)

/-- Quantization as the source performs it: clamp the scaled sample as a
float, then store into an `Int16Array`, which truncates toward zero. -/
def quantize (s : ℚ) : ℤ :=
  jsTrunc (clampQ (s * 32768))

/-- The PCM conditioning-and-quantization pipeline of `processAudioChunk`:
smooth, gate, scale by 32768, clamp, truncate. -/
def processChunkPCM (raw : List ℚ) : List ℤ :=
  (condition raw).map quantize

/-- Quantization as the spec claim words it: round the scaled sample to the
nearest integer, then clamp (`pcm[i] = clamp(round(smooth[i] * 32768))`). -/
def specQuantizeRound (s : ℚ) : ℤ :=
  clampInt (round (s * 32768))

/-- Quantization with truncation toward zero before clamping
(`pcm[i] = clamp(trunc(smooth[i] * 32768))`). -/
def specQuantizeTrunc (s : ℚ) : ℤ :=
  clampInt (jsTrunc (s * 32768))

/-! ### Frame codec: int16 little-endian bytes and base64
(`AudioRecorder.tsx` `encodePCMToBase64` lines 81-92; `VoiceSocket`
`handleAudioPlayback` lines 288-305) -/

/-- Little-endian byte serialization of one int16 sample, as reading the
`Int16Array`'s backing buffer byte by byte produces it: the sample's 16-bit
two's-complement pattern, low byte first. -/
def int16ToBytes (s : ℤ) : List ℕ :=
  [(s % 65536).toNat % 256, (s % 65536).toNat / 256]

/-- The byte content of the `Uint8Array` view over the PCM buffer. -/
def encodePCMBytes (pcm : List ℤ) : List ℕ :=
  (pcm.map int16ToBytes).flatten

/-- The standard base64 alphabet character for a sextet (`btoa`). -/
def sextetToChar (n : ℕ) : Char :=
  if n < 26 then Char.ofNat (65 + n)
  else if n < 52 then Char.ofNat (97 + (n - 26))
  else if n < 62 then Char.ofNat (48 + (n - 52))
  else if n = 62 then Char.ofNat 43
  else Char.ofNat 47

/-- The inverse base64 alphabet lookup (`atob`); `none` on a character
outside the alphabet. -/
def charToSextet (c : Char) : Option ℕ :=
  if 65 ≤ c.toNat ∧ c.toNat ≤ 90 then some (c.toNat - 65)
  else if 97 ≤ c.toNat ∧ c.toNat ≤ 122 then some (c.toNat - 97 + 26)
  else if 48 ≤ c.toNat ∧ c.toNat ≤ 57 then some (c.toNat - 48 + 52)
  else if c.toNat = 43 then some 62
  else if c.toNat = 47 then some 63
  else none

/-- Base64 encoding of a byte list (`btoa` applied to the binary string):
three bytes become four alphabet characters, a trailing group of one or two
bytes is padded with `=`. -/
def b64Encode : List ℕ → List Char
  | [] => []
  | [b0] =>
    [sextetToChar (b0 / 4), sextetToChar (b0 % 4 * 16), Char.ofNat 61, Char.ofNat 61]
  | [b0, b1] =>
    [sextetToChar (b0 / 4), sextetToChar (b0 % 4 * 16 + b1 / 16),
      sextetToChar (b1 % 16 * 4), Char.ofNat 61]
  | b0 :: b1 :: b2 :: rest =>
    sextetToChar (b0 / 4) :: sextetToChar (b0 % 4 * 16 + b1 / 16) ::
      sextetToChar (b1 % 16 * 4 + b2 / 64) :: sextetToChar (b2 % 64) :: b64Encode rest

/-- Base64 decoding of a character list back to bytes (`atob`); `none` when
the input is not a valid `btoa` output (modelling the `InvalidCharacterError`
that `atob` throws). -/
def b64Decode : List Char → Option (List ℕ)
  | [] => some []
  | c0 :: c1 :: c2 :: c3 :: rest =>
    match charToSextet c0, charToSextet c1 with
    | some s0, some s1 =>
      if c2 = Char.ofNat 61 then
        if c3 = Char.ofNat 61 ∧ rest = [] then some [s0 * 4 + s1 / 16] else none
      else
        match charToSextet c2 with
        | some s2 =>
          if c3 = Char.ofNat 61 then
            if rest = [] then some [s0 * 4 + s1 / 16, s1 % 16 * 16 + s2 / 4] else none
          else
            match charToSextet c3, b64Decode rest with
            | some s3, some tail =>
              some ((s0 * 4 + s1 / 16) :: (s1 % 16 * 16 + s2 / 4) :: (s2 % 4 * 64 + s3) :: tail)
            | _, _ => none
        | none => none
    | _, _ => none
  | _ => none

/-- Function `encodePCMToBase64` of `AudioRecorder.tsx`: serialize the int16 buffer
little-endian and base64-encode the resulting binary string. -/
def encodePCMToBase64 (pcm : List ℤ) : List Char :=
  b64Encode (encodePCMBytes pcm)

/-- The int16 reading loop of `handleAudioPlayback`:
`view.getInt16(i * 2, true)` — consecutive little-endian byte pairs decoded
as signed 16-bit integers. -/
def bytesToInt16 : List ℕ → List ℤ
  | lo :: hi :: rest =>
    (if 32768 ≤ lo + 256 * hi then (lo + 256 * hi : ℤ) - 65536 else (lo + 256 * hi : ℤ)) ::
      bytesToInt16 rest
  | _ => []

/-- The float conversion of `handleAudioPlayback`: `sample / 32768`. -/
def bytesToFloats (bs : List ℕ) : List ℚ :=
  (bytesToInt16 bs).map (fun s : ℤ => (s : ℚ) / 32768)

/-- The decode portion of `handleAudioPlayback`: base64-decode the payload
(`atob`), then build the float sample array.  An odd byte count makes
`byteStr.length / 2` fractional, and `new Float32Array(sampleCount)` throws a
`RangeError` on a non-integral length; both failures land in the handler's
`catch` block, so the model returns `none` for them. -/
def decodeAudioData (data : List Char) : Option (List ℚ) :=
  match b64Decode data with
  | none => none
  | some bytes => if bytes.length % 2 = 0 then some (bytesToFloats bytes) else none

/-! ### Playback scheduler (`VoiceSocket.handleAudioPlayback` lines 307-320) -/

/-- One scheduling step: if the playback clock has fallen within 50ms of the
current time, reset it to `now + 0.1`; start the frame at the (possibly
reset) clock; advance the clock by the frame's duration.  Returns the start
time and the new clock. -/
def schedulePlayback (clock now duration : ℚ) : ℚ × ℚ :=
  let start := if clock < now + 5 / 100 then now + 1 / 10 else clock
  (start, start + duration)

/-- Outcome of handling one inbound audio message: either the frame was
scheduled (with its samples, start time and new clock), or the error was
caught and logged by the `catch` block. -/
inductive PlaybackOutcome where
  | played (samples : List ℚ) (start : ℚ) (newClock : ℚ)
  | loggedError
  deriving DecidableEq

/-- Handler `handleAudioPlayback`: decode the base64 payload, convert to floats,
compute the duration (`sampleCount / sampleRate`), and schedule.  Any decode
failure (invalid base64, odd byte count) is caught and logged. -/
def handleAudioPlayback (data : List Char) (sampleRate clock now : ℚ) : PlaybackOutcome :=
  match decodeAudioData data with
  | none => .loggedError
  | some samples =>
    let (start, c) := schedulePlayback clock now ((samples.length : ℚ) / sampleRate)
    .played samples start c

/-! ### Streaming transport (`VoiceSocket`, `part_000` lines 82-253) -/

/-- The outgoing audio payload of `voicesocket.ts` (the `type` tag is the
constant string `audio` and is omitted). -/
structure OutgoingAudioPayload where
  data : List Char
  sample_rate : ℕ
  channels : ℕ
  deriving DecidableEq

/-- The mutable fields of `VoiceSocket` that the transport claims concern,
plus a `sent` log recording every payload handed to `socket.send`, in
order. -/
structure VoiceSocketState where
  reconnectAttempts : ℕ
  isClosing : Bool
  messageQueue : List OutgoingAudioPayload
  socketOpen : Bool
  sent : List OutgoingAudioPayload
  deriving DecidableEq

/-- A fresh `VoiceSocket` before any event. -/
def initialState : VoiceSocketState :=
  { reconnectAttempts := 0
    isClosing := false
    messageQueue := []
    socketOpen := false
    sent := [] }

/-- Method `VoiceSocket.init` (lines 99-104): reset the closing flag, the attempt
counter and the queue, then connect (the socket is not yet open). -/
def initStep (s : VoiceSocketState) : VoiceSocketState :=
  { s with
    isClosing := false
    reconnectAttempts := 0
    messageQueue := []
    socketOpen := false }

/-- Method `VoiceSocket.send` (lines 217-226): transmit when the socket is open,
otherwise append to the message queue. -/
def sendStep (s : VoiceSocketState) (p : OutgoingAudioPayload) : VoiceSocketState :=
  if s.socketOpen then { s with sent := s.sent ++ [p] }
  else { s with messageQueue := s.messageQueue ++ [p] }

/-- The `onopen` handler (lines 145-150): reset the attempt counter and
flush the queue front-to-back (`flushMessageQueue`, lines 228-239, shifts
and sends until empty). -/
def openStep (s : VoiceSocketState) : VoiceSocketState :=
  { s with
    socketOpen := true
    reconnectAttempts := 0
    sent := s.sent ++ s.messageQueue
    messageQueue := [] }

/-- The `onclose` handler (lines 152-177): with the socket no longer open,
when not explicitly closing, the close code differs from 1000 and the
attempt counter is below `maxReconnectAttempts = 5`, schedule a reconnect
with `setTimeout` delay `reconnectDelay * reconnectAttempts`
(`reconnectDelay = 1000`), the counter still holding its pre-increment
value; otherwise schedule nothing (and clear a pending closing flag).
Returns the state at close time and the scheduled delay, if any. -/
def handleClose (s : VoiceSocketState) (code : ℕ) : VoiceSocketState × Option ℕ :=
  let s' := { s with socketOpen := false }
  if s'.isClosing = false ∧ code ≠ 1000 ∧ s'.reconnectAttempts < 5 then
    (s', some (1000 * s'.reconnectAttempts))
  else if s'.isClosing then ({ s' with isClosing := false }, none)
  else (s', none)

/-- The body of the reconnect timer (lines 166-173): increment the attempt
counter, then call `connect()` again. -/
def fireReconnect (s : VoiceSocketState) : VoiceSocketState :=
  { s with reconnectAttempts := s.reconnectAttempts + 1 }

/-- One close event followed, when a reconnect was scheduled, by that
timer firing (the "consecutive closes" round: each reconnect attempt runs
and its socket closes again before the next close event). -/
def closeRound (s : VoiceSocketState) (code : ℕ) : VoiceSocketState × Option ℕ :=
  match handleClose s code with
  | (s', some d) => (fireReconnect s', some d)
  | (s', none) => (s', none)

/-- A run of close events (each followed by its reconnect timer when one
was scheduled), collecting the delays of all scheduled reconnects. -/
def closeTrace (s : VoiceSocketState) : List ℕ → VoiceSocketState × List ℕ
  | [] => (s, [])
  | c :: rest =>
    match closeRound s c with
    | (s', some d) =>
      let (s'', ds) := closeTrace s' rest
      (s'', d :: ds)
    | (s', none) =>
      let (s'', ds) := closeTrace s' rest
      (s'', ds)

/-! ### Capture pipeline (`AudioRecorder.tsx`, `processAudioChunk` lines 150-225) -/

/-- The recorder-side state `processAudioChunk` reads and writes: the
transmit-enabled flag (`isTransmittingRef`), whether the voice socket is
connected, whether the recorder and microphone stream are live, and the
chunk counter. -/
structure RecorderState where
  isTransmitting : Bool
  socketConnected : Bool
  recorderActive : Bool
  chunksSent : ℕ
  deriving DecidableEq

/-- Callback `processAudioChunk`: return early (discarding the chunk, touching
nothing) unless the transmit flag is set, the socket is connected and the
blob is non-empty; return early on empty decoded channel data; otherwise
condition, quantize, encode, and hand the payload to the transport,
incrementing the chunk counter.  `samples` stands for the channel data the
asynchronous `decodeAudioData` produced from the blob.  Returns the payload
handed to `VoiceSocket.send` (or `none`) and the updated recorder state. -/
def processAudioChunk (s : RecorderState) (blobSize : ℕ) (samples : List ℚ) :
    Option OutgoingAudioPayload × RecorderState :=
  if s.isTransmitting = false ∨ s.socketConnected = false ∨ blobSize = 0 then
    (none, s)
  else if samples.length = 0 then
    (none, s)
  else
    (some { data := encodePCMToBase64 (processChunkPCM samples)
            sample_rate := 16000
            channels := 1 },
      { s with chunksSent := s.chunksSent + 1 })

/-! ### Helper lemmas -/

/-- Sends while the socket is not open only append to the queue. -/
theorem foldl_send_closed (qs : List OutgoingAudioPayload) :
    ∀ s : VoiceSocketState, s.socketOpen = false →
      qs.foldl sendStep s = { s with messageQueue := s.messageQueue ++ qs } := by
  induction qs with
  | nil => intro s _; simp
  | cons q rest ih =>
    intro s h
    have hq : sendStep s q = { s with messageQueue := s.messageQueue ++ [q] } := by
      simp [sendStep, h]
    simp only [List.foldl_cons, hq]
    rw [ih { s with messageQueue := s.messageQueue ++ [q] } h]
    simp

/-- A concrete payload used by witnesses. -/
def pA : OutgoingAudioPayload :=
  { data := [Char.ofNat 65], sample_rate := 16000, channels := 1 }

/-- A concrete payload used by witnesses. -/
def pB : OutgoingAudioPayload :=
  { data := [Char.ofNat 66], sample_rate := 16000, channels := 1 }

/-- A concrete payload used by witnesses. -/
def pC : OutgoingAudioPayload :=
  { data := [Char.ofNat 67], sample_rate := 16000, channels := 1 }

/-! ### Claims -/

/-- C1 counterexample.  The claim says the first retry is scheduled after
`baseDelay * attemptNumber` with `attemptNumber = 1`, i.e. after 1000ms.  On
a freshly initialized transport the first unexpected close schedules the
reconnect with delay `reconnectDelay * reconnectAttempts = 1000 * 0 = 0`,
because the counter is incremented only inside the timer callback, after the
delay has been computed. -/
theorem reconnect_first_delay_zero :
    (handleClose (initStep initialState) 1006).2 = some 0 ∧ (0 : ℕ) ≠ 1000 * 1 := by
  constructor
  · decide
  · decide

/-- C1 (amended): on an unexpected close (code other than 1000) while not
explicitly closing and with the attempt counter below the maximum, a
reconnect is scheduled after `baseDelay * (attemptNumber - 1)` milliseconds
— i.e. `1000 * reconnectAttempts` with the counter's pre-increment value, so
the first retry fires with delay 0 — and the counter is incremented when the
scheduled attempt fires. -/
theorem reconnect_delay_schedule (s : VoiceSocketState) (code : ℕ)
    (h1 : s.isClosing = false) (h2 : code ≠ 1000) (h3 : s.reconnectAttempts < 5) :
    (handleClose s code).2 = some (1000 * s.reconnectAttempts) ∧
      (fireReconnect (handleClose s code).1).reconnectAttempts = s.reconnectAttempts + 1 := by
  simp [handleClose, fireReconnect, h1, h2, h3]

/-- Witness for `reconnect_delay_schedule` at a concrete state with two
prior attempts: the third retry is scheduled after 2000ms. -/
theorem reconnect_delay_schedule_witness :
    (handleClose { initialState with reconnectAttempts := 2 } 1006).2 = some (1000 * 2) ∧
      (fireReconnect (handleClose { initialState with reconnectAttempts := 2 } 1006).1).reconnectAttempts = 2 + 1 := by
  have h := reconnect_delay_schedule { initialState with reconnectAttempts := 2 } 1006
    (by decide) (by decide) (by decide)
  exact h

/-- C5: starting from a fresh transport, six consecutive unsolicited closes
(code 1006, each scheduled reconnect firing and closing again) schedule
exactly five reconnect attempts; the close after the fifth round schedules
none and leaves the socket closed with the counter exhausted at 5; and a
close with the intentional code 1000 never schedules a reconnect, whatever
the state. -/
theorem reconnect_budget_five :
    (closeTrace (initStep initialState) (List.replicate 6 1006)).2.length = 5 ∧
    (closeRound (closeTrace (initStep initialState) (List.replicate 5 1006)).1 1006).2 = none ∧
    (closeTrace (initStep initialState) (List.replicate 6 1006)).1.reconnectAttempts = 5 ∧
    (closeTrace (initStep initialState) (List.replicate 6 1006)).1.socketOpen = false ∧
    ∀ s : VoiceSocketState, (handleClose s 1000).2 = none := by
  refine ⟨by decide, by decide, by decide, by decide, ?_⟩
  intro s
  cases h : s.isClosing <;> simp [handleClose, h]

/-- C6: while the playback clock is behind `now + 50ms` (the scenario of
three 1-second frames arriving with no artificial delay at a fresh
scheduler), the first frame starts at `t0 = now + 100ms` (the underrun
reset), and the second and third start at `t0 + 1` and `t0 + 2` —
back-to-back, no gap, no overlap, with `t0 ≥ now + 100ms`. -/
theorem playback_three_frames (clock now : ℚ) (h : clock < now + 5 / 100) :
    (schedulePlayback clock now 1).1 = now + 1 / 10 ∧
    (schedulePlayback (schedulePlayback clock now 1).2 now 1).1 = now + 1 / 10 + 1 ∧
    (schedulePlayback (schedulePlayback (schedulePlayback clock now 1).2 now 1).2 now 1).1 =
      now + 1 / 10 + 2 ∧
    now + 1 / 10 ≤ (schedulePlayback clock now 1).1 := by
  have e1 : schedulePlayback clock now 1 = (now + 1 / 10, now + 1 / 10 + 1) := by
    simp only [schedulePlayback, if_pos h]
  have h2 : ¬(now + 1 / 10 + 1 < now + 5 / 100) := by linarith
  have e2 : schedulePlayback (now + 1 / 10 + 1) now 1 =
      (now + 1 / 10 + 1, now + 1 / 10 + 1 + 1) := by
    simp only [schedulePlayback, if_neg h2]
  have h3 : ¬(now + 1 / 10 + 1 + 1 < now + 5 / 100) := by linarith
  have e3 : schedulePlayback (now + 1 / 10 + 1 + 1) now 1 =
      (now + 1 / 10 + 1 + 1, now + 1 / 10 + 1 + 1 + 1) := by
    simp only [schedulePlayback, if_neg h3]
  refine ⟨by simp only [e1], by simp only [e1, e2], ?_,
    by simp only [e1]; exact le_refl _⟩
  simp only [e1, e2, e3]
  ring

/-- Witness for `playback_three_frames` with the clock at 0 and `now = 0`. -/
theorem playback_three_frames_witness :
    (schedulePlayback 0 0 1).1 = 0 + 1 / 10 ∧
    (schedulePlayback (schedulePlayback 0 0 1).2 0 1).1 = 0 + 1 / 10 + 1 ∧
    (schedulePlayback (schedulePlayback (schedulePlayback 0 0 1).2 0 1).2 0 1).1 =
      0 + 1 / 10 + 2 ∧
    (0 : ℚ) + 1 / 10 ≤ (schedulePlayback 0 0 1).1 :=
  playback_three_frames 0 0 (by norm_num)

/-- C4: frames submitted via `send` while the socket is not open are all
appended to the queue in order; on open the whole queue is flushed in FIFO
order, and a frame submitted after the transition is transmitted after all
of them. -/
theorem queue_fifo_flush (s : VoiceSocketState) (qs : List OutgoingAudioPayload)
    (p : OutgoingAudioPayload) (h : s.socketOpen = false) :
    ((qs.foldl sendStep s).messageQueue = s.messageQueue ++ qs) ∧
    ((qs.foldl sendStep s).sent = s.sent) ∧
    ((openStep (qs.foldl sendStep s)).sent = s.sent ++ (s.messageQueue ++ qs)) ∧
    ((openStep (qs.foldl sendStep s)).messageQueue = []) ∧
    ((sendStep (openStep (qs.foldl sendStep s)) p).sent =
      s.sent ++ (s.messageQueue ++ qs) ++ [p]) := by
  rw [foldl_send_closed qs s h]
  simp [openStep, sendStep]

/-- Witness for `queue_fifo_flush`: two queued frames flushed in order, then
a post-open frame after them. -/
theorem queue_fifo_flush_witness :
    (([pA, pB].foldl sendStep initialState).messageQueue = initialState.messageQueue ++ [pA, pB]) ∧
    (([pA, pB].foldl sendStep initialState).sent = initialState.sent) ∧
    ((openStep ([pA, pB].foldl sendStep initialState)).sent =
      initialState.sent ++ (initialState.messageQueue ++ [pA, pB])) ∧
    ((openStep ([pA, pB].foldl sendStep initialState)).messageQueue = []) ∧
    ((sendStep (openStep ([pA, pB].foldl sendStep initialState)) pC).sent =
      initialState.sent ++ (initialState.messageQueue ++ [pA, pB]) ++ [pC]) :=
  queue_fifo_flush initialState [pA, pB] pC rfl

/-- C10: `init()` empties the outbound queue, resets the attempt counter and
the closing flag; every frame submitted via `send` before `init` is
discarded — after the subsequent open and flush, nothing beyond what was
already transmitted has been sent. -/
theorem init_discards_queue (s : VoiceSocketState) (frames : List OutgoingAudioPayload)
    (h : s.socketOpen = false) :
    ((initStep (frames.foldl sendStep s)).messageQueue = []) ∧
    ((initStep (frames.foldl sendStep s)).reconnectAttempts = 0) ∧
    ((initStep (frames.foldl sendStep s)).isClosing = false) ∧
    ((openStep (initStep (frames.foldl sendStep s))).sent = s.sent) ∧
    ((openStep (initStep (frames.foldl sendStep s))).messageQueue = []) := by
  rw [foldl_send_closed frames s h]
  simp [initStep, openStep]

/-- Witness for `init_discards_queue`: two frames queued before `init` never
appear in the transmitted log. -/
theorem init_discards_queue_witness :
    ((initStep ([pA, pB].foldl sendStep initialState)).messageQueue = []) ∧
    ((initStep ([pA, pB].foldl sendStep initialState)).reconnectAttempts = 0) ∧
    ((initStep ([pA, pB].foldl sendStep initialState)).isClosing = false) ∧
    ((openStep (initStep ([pA, pB].foldl sendStep initialState))).sent = initialState.sent) ∧
    ((openStep (initStep ([pA, pB].foldl sendStep initialState))).messageQueue = []) :=
  init_discards_queue initialState [pA, pB] rfl

/-- C9 counterexample.  The claim says a chunk is handed to the transport
if and only if the transmit-enabled flag is set when it is processed.  With
the flag set but the socket not connected, `processAudioChunk` returns at
its first guard: no frame reaches the transport although the flag is set,
and the recorder state is untouched. -/
theorem chunk_gating_needs_connection :
    (⟨true, false, true, 0⟩ : RecorderState).isTransmitting = true ∧
    processAudioChunk ⟨true, false, true, 0⟩ 1 [1 / 2] = (none, ⟨true, false, true, 0⟩) := by
  constructor
  · rfl
  · simp [processAudioChunk]

/-- C9 (amended): a delivered chunk is conditioned, encoded and handed to
the transport if and only if the transmit-enabled flag is set AND the
socket is connected AND the blob is non-empty AND the decoded channel data
is non-empty; otherwise it is silently discarded.  A clear flag leaves the
state completely untouched (recording continues), and in every case the
recorder stays active and the flag itself is not modified (the recorder is
not stopped and the microphone is not released). -/
theorem chunk_gating (s : RecorderState) (blobSize : ℕ) (samples : List ℚ) :
    ((processAudioChunk s blobSize samples).1.isSome = true ↔
      s.isTransmitting = true ∧ s.socketConnected = true ∧ blobSize ≠ 0 ∧ samples ≠ []) ∧
    (s.isTransmitting = false → processAudioChunk s blobSize samples = (none, s)) ∧
    ((processAudioChunk s blobSize samples).2.recorderActive = s.recorderActive) ∧
    ((processAudioChunk s blobSize samples).2.isTransmitting = s.isTransmitting) := by
  obtain ⟨t, c, r, n⟩ := s
  unfold processAudioChunk
  cases t <;> cases c <;>
    by_cases hb : blobSize = 0 <;>
    by_cases hs : samples = [] <;>
      simp_all [List.length_eq_zero]

/-! Noise-gate claim (C7). -/

/-- One smoothing step keeps the magnitude strictly below the gate
threshold when both the previous smoothed value and the raw sample are
below it. -/
theorem smoothStep_small (prev raw : ℚ) (hp : |prev| < 15 / 1000)
    (hr : |raw| < 15 / 1000) : |smoothStep prev raw| < 15 / 1000 := by
  have he : smoothStep prev raw = (88 / 100) * prev + (12 / 100) * raw := by
    unfold smoothStep; ring
  rw [he]
  calc |(88 / 100) * prev + (12 / 100) * raw|
      ≤ |(88 / 100) * prev| + |(12 / 100) * raw| := abs_add _ _
    _ = (88 / 100) * |prev| + (12 / 100) * |raw| := by
        rw [abs_mul, abs_mul, abs_of_pos (show (0 : ℚ) < 88 / 100 by norm_num),
          abs_of_pos (show (0 : ℚ) < 12 / 100 by norm_num)]
    _ < 15 / 1000 := by linarith

/-- The conditioning loop zeroes every output sample as long as the raw
samples and the carried smoothed value stay below the gate threshold. -/
theorem conditionAux_all_zero (raw : List ℚ) :
    ∀ prev : ℚ, (∀ x ∈ raw, |x| < 15 / 1000) → |prev| < 15 / 1000 →
      conditionAux prev raw = List.replicate raw.length 0 := by
  induction raw with
  | nil => intro prev _ _; rfl
  | cons r rest ih =>
    intro prev hall hp
    have hr : |r| < 15 / 1000 := hall r (by simp)
    have hs := smoothStep_small prev r hp hr
    simp only [conditionAux, List.length_cons, List.replicate_succ]
    rw [gate, if_pos hs, ih (smoothStep prev r) (fun x hx => hall x (by simp [hx])) hs]

/-- C7: when every raw sample's magnitude is strictly below the noise-gate
threshold 0.015, the conditioner's output is the all-zero sequence, and the
quantized PCM is all zero as well. -/
theorem noise_gate_all_zero (raw : List ℚ) (h : ∀ x ∈ raw, |x| < 15 / 1000) :
    condition raw = List.replicate raw.length 0 ∧
    processChunkPCM raw = List.replicate raw.length 0 := by
  have hc : condition raw = List.replicate raw.length 0 :=
    conditionAux_all_zero raw 0 h (by norm_num)
  refine ⟨hc, ?_⟩
  unfold processChunkPCM
  rw [hc, List.map_replicate]
  have hq : quantize 0 = 0 := by
    unfold quantize clampQ jsTrunc
    norm_num
  rw [hq]

/-- Witness for `noise_gate_all_zero` on the sub-threshold input
`[0.01, -0.01]`. -/
theorem noise_gate_all_zero_witness :
    condition [1 / 100, -(1 / 100)] = List.replicate ([1 / 100, -(1 / 100)] : List ℚ).length 0 ∧
    processChunkPCM [1 / 100, -(1 / 100)] =
      List.replicate ([1 / 100, -(1 / 100)] : List ℚ).length 0 := by
  have h : ∀ x ∈ ([1 / 100, -(1 / 100)] : List ℚ), |x| < 15 / 1000 := by
    intro x hx
    rcases List.mem_cons.mp hx with h1 | hx
    · rw [h1]; rw [abs_of_pos] <;> norm_num
    rcases List.mem_cons.mp hx with h2 | hx
    · rw [h2]; rw [abs_of_neg] <;> norm_num
    · cases hx
  exact noise_gate_all_zero [1 / 100, -(1 / 100)] h

/-! Quantization claim (C2). -/

/-- Truncation toward zero is the identity on integers. -/
theorem jsTrunc_intCast (n : ℤ) : jsTrunc ((n : ℚ)) = n := by
  unfold jsTrunc
  split_ifs with h
  · exact Int.floor_intCast n
  · exact Int.ceil_intCast n

/-- Truncation toward zero is monotone. -/
theorem jsTrunc_mono {a b : ℚ} (h : a ≤ b) : jsTrunc a ≤ jsTrunc b := by
  unfold jsTrunc
  rcases le_or_lt 0 a with ha | ha
  · rw [if_pos ha, if_pos (le_trans ha h)]
    exact Int.floor_le_floor h
  · rw [if_neg (not_le.mpr ha)]
    rcases le_or_lt 0 b with hb | hb
    · rw [if_pos hb]
      have h1 : (⌈a⌉ : ℤ) ≤ 0 := Int.ceil_le.mpr (by exact_mod_cast le_of_lt ha)
      have h2 : (0 : ℤ) ≤ ⌊b⌋ := Int.le_floor.mpr (by exact_mod_cast hb)
      omega
    · rw [if_neg (not_le.mpr hb)]
      exact Int.ceil_le_ceil h

/-- Truncation at the lower clamp bound. -/
theorem jsTrunc_neg_bound : jsTrunc (-32768 : ℚ) = -32768 := by
  rw [show (-32768 : ℚ) = (((-32768 : ℤ)) : ℚ) by norm_num, jsTrunc_intCast]

/-- Truncation at the upper clamp bound. -/
theorem jsTrunc_pos_bound : jsTrunc (32767 : ℚ) = 32767 := by
  rw [show (32767 : ℚ) = (((32767 : ℤ)) : ℚ) by norm_num, jsTrunc_intCast]

/-- Clamping as a float then truncating into the `Int16Array` equals
truncating first and clamping the integer: the source's
`trunc(clamp(v))` coincides with `clamp(trunc(v))`. -/
theorem jsTrunc_clampQ (v : ℚ) : jsTrunc (clampQ v) = clampInt (jsTrunc v) := by
  rcases le_total v (-32768) with h1 | h1
  · have hc : clampQ v = -32768 := by
      unfold clampQ
      rw [min_eq_right (by linarith : v ≤ 32767), max_eq_left h1]
    have ht : jsTrunc v ≤ -32768 := by
      have h := jsTrunc_mono h1
      rwa [jsTrunc_neg_bound] at h
    rw [hc, jsTrunc_neg_bound]
    unfold clampInt
    rw [min_eq_right (by omega : jsTrunc v ≤ 32767), max_eq_left ht]
  · rcases le_total 32767 v with h2 | h2
    · have hc : clampQ v = 32767 := by
        unfold clampQ
        rw [min_eq_left h2, max_eq_right (by norm_num : (-32768 : ℚ) ≤ 32767)]
      have ht : 32767 ≤ jsTrunc v := by
        have h := jsTrunc_mono h2
        rwa [jsTrunc_pos_bound] at h
      rw [hc, jsTrunc_pos_bound]
      unfold clampInt
      rw [min_eq_left ht, max_eq_right (by omega : (-32768 : ℤ) ≤ 32767)]
    · have hc : clampQ v = v := by
        unfold clampQ
        rw [min_eq_right h2, max_eq_right h1]
      have hlo : -32768 ≤ jsTrunc v := by
        have h := jsTrunc_mono h1
        rwa [jsTrunc_neg_bound] at h
      have hhi : jsTrunc v ≤ 32767 := by
        have h := jsTrunc_mono h2
        rwa [jsTrunc_pos_bound] at h
      rw [hc]
      unfold clampInt
      rw [min_eq_right hhi, max_eq_right hlo]

/-- C2 counterexample.  On the input `[0.125]` the smoothed value is
exactly `0.015 = 3/200`, which passes the gate; scaled by 32768 it is
`491.52`.  The code stores `491` (Int16 conversion truncates toward zero),
while the claim's formula `clamp(round(smooth * 32768))` gives `492`. -/
theorem quantize_rounds_counterexample :
    condition [1 / 8] = [3 / 200] ∧
    processChunkPCM [1 / 8] = [491] ∧
    (condition [1 / 8]).map specQuantizeRound = [492] := by
  have hsm : smoothStep 0 (1 / 8) = 3 / 200 := by
    unfold smoothStep
    norm_num
  have hne : ¬(|(3 / 200 : ℚ)| < 15 / 1000) := by
    rw [abs_of_pos (by norm_num : (0 : ℚ) < 3 / 200)]
    norm_num
  have hgate : gate (3 / 200) = 3 / 200 := by
    unfold gate
    exact if_neg hne
  have hcond : condition [1 / 8] = [3 / 200] := by
    unfold condition conditionAux
    rw [hsm, hgate]
    rfl
  have hv : (3 / 200 : ℚ) * 32768 = 12288 / 25 := by norm_num
  have hfl : (⌊(12288 / 25 : ℚ)⌋ : ℤ) = 491 := by
    rw [Int.floor_eq_iff]
    constructor <;> norm_num
  have hq : quantize (3 / 200) = 491 := by
    unfold quantize clampQ jsTrunc
    rw [hv, min_eq_right (by norm_num : (12288 / 25 : ℚ) ≤ 32767),
      max_eq_right (by norm_num : (-32768 : ℚ) ≤ 12288 / 25),
      if_pos (by norm_num : (0 : ℚ) ≤ 12288 / 25), hfl]
  have hfr : (⌊(12288 / 25 : ℚ) + 1 / 2⌋ : ℤ) = 492 := by
    rw [Int.floor_eq_iff]
    constructor <;> norm_num
  have hr : specQuantizeRound (3 / 200) = 492 := by
    unfold specQuantizeRound clampInt
    rw [hv, round_eq, hfr, min_eq_right (by omega : (492 : ℤ) ≤ 32767),
      max_eq_right (by omega : (-32768 : ℤ) ≤ 492)]
  refine ⟨hcond, ?_, ?_⟩
  · unfold processChunkPCM
    rw [hcond]
    simp [hq]
  · rw [hcond]
    simp [hr]

/-- C2 (amended): the quantized output is
`pcm[i] = clamp(trunc(smooth[i] * 32768), -32768, 32767)` where `trunc`
truncates toward zero (the ECMAScript Int16 conversion), not round to
nearest; and every quantized sample lies within `[-32768, 32767]` — no
overflow wraps. -/
theorem quantize_trunc_clamp (raw : List ℚ) :
    processChunkPCM raw = (condition raw).map specQuantizeTrunc ∧
    ∀ z ∈ processChunkPCM raw, -32768 ≤ z ∧ z ≤ 32767 := by
  have hfun : quantize = specQuantizeTrunc := by
    funext s
    unfold quantize specQuantizeTrunc
    exact jsTrunc_clampQ (s * 32768)
  constructor
  · unfold processChunkPCM
    rw [hfun]
  · intro z hz
    unfold processChunkPCM at hz
    rcases List.mem_map.mp hz with ⟨s, _, rfl⟩
    unfold quantize
    have h1 : (-32768 : ℚ) ≤ clampQ (s * 32768) := le_max_left _ _
    have h2 : clampQ (s * 32768) ≤ 32767 := by
      unfold clampQ
      exact max_le (by norm_num) (min_le_left _ _)
    constructor
    · have h := jsTrunc_mono h1
      rwa [jsTrunc_neg_bound] at h
    · have h := jsTrunc_mono h2
      rwa [jsTrunc_pos_bound] at h

/-! Frame codec claims (C3, C8). -/

/-- The base64 alphabet map and its inverse compose to the identity on
sextets. -/
theorem charToSextet_sextetToChar : ∀ n, n < 64 → charToSextet (sextetToChar n) = some n := by
  decide

/-- No alphabet character is the padding character `=`. -/
theorem sextetToChar_ne_pad : ∀ n, n < 64 → sextetToChar n ≠ Char.ofNat 61 := by
  decide

/-- Base64 round-trip: decoding an encoded byte list recovers it exactly. -/
theorem b64_roundtrip :
    ∀ bs : List ℕ, (∀ b ∈ bs, b < 256) → b64Decode (b64Encode bs) = some bs := by
  intro bs
  induction bs using b64Encode.induct with
  | case1 =>
    intro _
    rfl
  | case2 b0 =>
    intro h
    have hb0 : b0 < 256 := h b0 (by simp)
    have e0 : charToSextet (sextetToChar (b0 / 4)) = some (b0 / 4) :=
      charToSextet_sextetToChar _ (by omega)
    have e1 : charToSextet (sextetToChar (b0 % 4 * 16)) = some (b0 % 4 * 16) :=
      charToSextet_sextetToChar _ (by omega)
    simp only [b64Encode, b64Decode, e0, e1, and_self, if_true, Option.some.injEq,
      List.cons.injEq, and_true]
    omega
  | case3 b0 b1 =>
    intro h
    have hb0 : b0 < 256 := h b0 (by simp)
    have hb1 : b1 < 256 := h b1 (by simp)
    have e0 : charToSextet (sextetToChar (b0 / 4)) = some (b0 / 4) :=
      charToSextet_sextetToChar _ (by omega)
    have e1 : charToSextet (sextetToChar (b0 % 4 * 16 + b1 / 16)) =
        some (b0 % 4 * 16 + b1 / 16) :=
      charToSextet_sextetToChar _ (by omega)
    have e2 : charToSextet (sextetToChar (b1 % 16 * 4)) = some (b1 % 16 * 4) :=
      charToSextet_sextetToChar _ (by omega)
    have n2 : ¬(sextetToChar (b1 % 16 * 4) = Char.ofNat 61) :=
      sextetToChar_ne_pad _ (by omega)
    simp only [b64Encode, b64Decode, e0, e1, e2, if_neg n2, if_true,
      Option.some.injEq, List.cons.injEq, and_true]
    constructor
    · omega
    · omega
  | case4 b0 b1 b2 rest ih =>
    intro h
    have hb0 : b0 < 256 := h b0 (by simp)
    have hb1 : b1 < 256 := h b1 (by simp)
    have hb2 : b2 < 256 := h b2 (by simp)
    have hrest : ∀ b ∈ rest, b < 256 := fun b hb => h b (by simp [hb])
    have e0 : charToSextet (sextetToChar (b0 / 4)) = some (b0 / 4) :=
      charToSextet_sextetToChar _ (by omega)
    have e1 : charToSextet (sextetToChar (b0 % 4 * 16 + b1 / 16)) =
        some (b0 % 4 * 16 + b1 / 16) :=
      charToSextet_sextetToChar _ (by omega)
    have e2 : charToSextet (sextetToChar (b1 % 16 * 4 + b2 / 64)) =
        some (b1 % 16 * 4 + b2 / 64) :=
      charToSextet_sextetToChar _ (by omega)
    have e3 : charToSextet (sextetToChar (b2 % 64)) = some (b2 % 64) :=
      charToSextet_sextetToChar _ (by omega)
    have n2 : ¬(sextetToChar (b1 % 16 * 4 + b2 / 64) = Char.ofNat 61) :=
      sextetToChar_ne_pad _ (by omega)
    have n3 : ¬(sextetToChar (b2 % 64) = Char.ofNat 61) :=
      sextetToChar_ne_pad _ (by omega)
    simp only [b64Encode, b64Decode, e0, e1, e2, e3, if_neg n2, if_neg n3, ih hrest,
      Option.some.injEq, List.cons.injEq, and_true]
    refine ⟨by omega, by omega, by omega⟩

/-- Every serialized PCM byte is below 256. -/
theorem encodePCMBytes_bound (pcm : List ℤ) : ∀ b ∈ encodePCMBytes pcm, b < 256 := by
  intro b hb
  unfold encodePCMBytes at hb
  rcases List.mem_flatten.mp hb with ⟨l, hl, hbl⟩
  rcases List.mem_map.mp hl with ⟨s, _, rfl⟩
  unfold int16ToBytes at hbl
  have hu : (s % 65536).toNat < 65536 := by omega
  rcases List.mem_cons.mp hbl with h1 | hbl
  · omega
  rcases List.mem_cons.mp hbl with h2 | hbl
  · omega
  · cases hbl

/-- Serializing `n` samples produces `2n` bytes. -/
theorem encodePCMBytes_length (pcm : List ℤ) :
    (encodePCMBytes pcm).length = 2 * pcm.length := by
  induction pcm with
  | nil => rfl
  | cons s rest ih =>
    simp only [encodePCMBytes, int16ToBytes, List.map_cons, List.flatten_cons,
      List.length_append, List.length_cons, List.length_nil] at ih ⊢
    omega

/-- Reading back the little-endian byte serialization recovers every int16
sample exactly. -/
theorem bytesToInt16_encode (pcm : List ℤ)
    (h : ∀ s ∈ pcm, -32768 ≤ s ∧ s ≤ 32767) :
    bytesToInt16 (encodePCMBytes pcm) = pcm := by
  induction pcm with
  | nil => rfl
  | cons s rest ih =>
    have hs := h s (by simp)
    have hrest : ∀ x ∈ rest, -32768 ≤ x ∧ x ≤ 32767 := fun x hx => h x (by simp [hx])
    have hshape : encodePCMBytes (s :: rest) =
        (s % 65536).toNat % 256 :: (s % 65536).toNat / 256 :: encodePCMBytes rest := by
      simp [encodePCMBytes, int16ToBytes]
    rw [hshape]
    simp only [bytesToInt16, ih hrest, List.cons.injEq, and_true]
    split_ifs with hc <;> omega

/-- C3: for every int16 sample sequence, decoding the base64-encoded frame
yields exactly `pcm[i] / 32768` at every index, and multiplying each
decoded float by 32768 recovers the original samples exactly. -/
theorem codec_roundtrip (pcm : List ℤ) (h : ∀ s ∈ pcm, -32768 ≤ s ∧ s ≤ 32767) :
    decodeAudioData (encodePCMToBase64 pcm) = some (pcm.map (fun s : ℤ => (s : ℚ) / 32768)) ∧
    (pcm.map (fun s : ℤ => (s : ℚ) / 32768)).map (fun q => q * 32768) =
      pcm.map (fun s : ℤ => (s : ℚ)) := by
  constructor
  · have hlen : (encodePCMBytes pcm).length % 2 = 0 := by
      rw [encodePCMBytes_length]
      omega
    simp only [decodeAudioData, encodePCMToBase64,
      b64_roundtrip _ (encodePCMBytes_bound pcm), if_pos hlen]
    unfold bytesToFloats
    rw [bytesToInt16_encode pcm h]
  · clear h
    induction pcm with
    | nil => rfl
    | cons s rest ih =>
      simp only [List.map_cons, List.cons.injEq]
      exact ⟨div_mul_cancel₀ _ (by norm_num : (32768 : ℚ) ≠ 0), ih⟩

/-- Witness for `codec_roundtrip` on the two-sample frame `[1, -1]`. -/
theorem codec_roundtrip_witness :
    decodeAudioData (encodePCMToBase64 [1, -1]) =
      some (([1, -1] : List ℤ).map (fun s : ℤ => (s : ℚ) / 32768)) ∧
    (([1, -1] : List ℤ).map (fun s : ℤ => (s : ℚ) / 32768)).map (fun q => q * 32768) =
      ([1, -1] : List ℤ).map (fun s : ℤ => (s : ℚ)) :=
  codec_roundtrip [1, -1] (by decide)

/-- C8: an inbound audio message whose base64 payload decodes to an odd
number of bytes yields the logged decode failure: `handleAudioPlayback`
returns the caught-and-logged outcome (the fractional `Float32Array` length
throws inside the `try`), never a played frame — no crash, no zero-fill, no
truncated sample. -/
theorem odd_payload_logged (data : List Char) (bytes : List ℕ)
    (h1 : b64Decode data = some bytes) (h2 : bytes.length % 2 = 1) :
    ∀ sampleRate clock now : ℚ,
      handleAudioPlayback data sampleRate clock now = PlaybackOutcome.loggedError := by
  intro rate clock now
  have hd : decodeAudioData data = none := by
    simp only [decodeAudioData, h1]
    rw [if_neg (by omega)]
  simp only [handleAudioPlayback, hd]

/-- Witness for `odd_payload_logged`: the payload `AA==` decodes to the
single byte `[0]` (odd length) and is handled as a logged error. -/
theorem odd_payload_logged_witness :
    b64Decode [Char.ofNat 65, Char.ofNat 65, Char.ofNat 61, Char.ofNat 61] = some [0] ∧
    handleAudioPlayback [Char.ofNat 65, Char.ofNat 65, Char.ofNat 61, Char.ofNat 61]
      24000 0 0 = PlaybackOutcome.loggedError :=
  ⟨by decide,
    odd_payload_logged [Char.ofNat 65, Char.ofNat 65, Char.ofNat 61, Char.ofNat 61] [0]
      (by decide) (by decide) 24000 0 0⟩

end VoiceModel
